import Mathlib

/-!
Verification model of the news-summarizer extraction and summarization
pipeline (src/news.py, class NewsSummarizer).

Python strings are modelled as Lean `String` (ASCII is all the claims
exercise); Python dictionaries with optional-string values as association
lists; raised exceptions as an explicit `Exc` type threaded through
`Except`.  Network and language-model calls are oracles supplied as
function parameters: a fetch oracle maps (url, attempt) to a transport
outcome, and a completion oracle maps the input text to either a response
string or a raised exception.  Every definition translates the
corresponding Python code; stdlib boundary functions (urlparse, urljoin,
re.search of the one fixed pattern, str.split/strip/lower) are modelled
explicitly below.
-/

/-! ## Python string primitives -/

/-- Whitespace characters recognised by Python str.split / str.strip and
by the regex class \s (ASCII range). -/
def isSpace (c : Char) : Bool :=
  c == ' ' || c == '\t' || c == '\n' || c == '\r' || c == '\x0b' || c == '\x0c'

/-- Accumulator-style splitter: Python str.split() with no argument, i.e.
split on runs of whitespace and drop empty pieces.  The accumulator holds
the current word reversed. -/
def splitAcc : List Char → List Char → List String
  | [], acc => if acc.isEmpty then [] else [String.mk acc.reverse]
  | c :: cs, acc =>
      if isSpace c then
        if acc.isEmpty then splitAcc cs []
        else String.mk acc.reverse :: splitAcc cs []
      else splitAcc cs (c :: acc)

/-- Python str.split() with no separator. -/
def pySplit (s : String) : List String := splitAcc s.toList []

/-- Remove a maximal all-whitespace suffix. -/
def dropTrailingWs : List Char → List Char
  | [] => []
  | c :: cs =>
      match dropTrailingWs cs with
      | [] => if isSpace c then [] else [c]
      | r => c :: r

/-- Python str.strip() with no argument. -/
def pyStrip (s : String) : String :=
  String.mk (dropTrailingWs (s.toList.dropWhile isSpace))

/-- Python re.sub(r"\s+", " ", s): every maximal whitespace run becomes a
single space.  The flag records whether the previous character was
whitespace (so the run is already represented). -/
def collapseChars : List Char → Bool → List Char
  | [], _ => []
  | c :: cs, prevSpace =>
      if isSpace c then
        if prevSpace then collapseChars cs true
        else ' ' :: collapseChars cs true
      else c :: collapseChars cs false

def collapseWs (s : String) : String := String.mk (collapseChars s.toList false)

/-- Python " ".join(l). -/
def joinSpace : List String → String
  | [] => ""
  | [s] => s
  | s :: rest => s ++ " " ++ joinSpace rest

/-- Python str.lower() (ASCII case fold, all the inputs involved are ASCII). -/
def pyLower (s : String) : String := String.mk (s.toList.map Char.toLower)

/-- Does the pattern list lead the other list (list version of startswith)? -/
def leadsChars : List Char → List Char → Bool
  | [], _ => true
  | _ :: _, [] => false
  | p :: ps, c :: cs => p == c && leadsChars ps cs

/-- Python s.startswith(pre) (case sensitive). -/
def leads (pre s : String) : Bool := leadsChars pre.toList s.toList

/-- Substring containment: Python (nd in hay). -/
def hasSubChars (nd : List Char) : List Char → Bool
  | [] => nd.isEmpty
  | c :: cs => leadsChars nd (c :: cs) || hasSubChars nd cs

def hasSub (hay nd : String) : Bool := hasSubChars nd.toList hay.toList

/-! ## Exceptions and dictionaries -/

/-- The exception kinds the pipeline raises or catches.  All constructors
model subclasses of Python Exception; `other` stands for any exception
that is none of the named ones (carrying its type name and message). -/
inductive Exc where
  | valueError (msg : String)
  | timeoutError (msg : String)
  | connectionError (msg : String)
  | other (ty : String) (msg : String)
deriving DecidableEq

def Exc.msg : Exc → String
  | .valueError m => m
  | .timeoutError m => m
  | .connectionError m => m
  | .other _ m => m

/-- Python type(e).__name__. -/
def Exc.typeName : Exc → String
  | .valueError _ => "ValueError"
  | .timeoutError _ => "TimeoutError"
  | .connectionError _ => "ConnectionError"
  | .other ty _ => ty

/-- Does except ValueError catch this exception?  TimeoutError and
ConnectionError are OSError subclasses, not ValueError subclasses, and
`other` stands for non-ValueError exceptions. -/
def Exc.isValueError : Exc → Bool
  | .valueError _ => true
  | _ => false

/-- A Python dict value in this program: a string or None. -/
inductive PyVal where
  | str (s : String)
  | none
deriving DecidableEq

/-- A Python dict with string keys, as an association list in insertion
order (the dicts of the program are all built literally). -/
abbrev Dict := List (String × PyVal)

/-- Python (k in d). -/
def hasKey (d : Dict) (k : String) : Bool := d.any (fun p => p.1 == k)

/-- Python d.get(k): the stored value, if any. -/
def getVal (d : Dict) (k : String) : Option PyVal :=
  (d.find? (fun p => p.1 == k)).map (fun p => p.2)

/-- Python d.get(k) with the None default. -/
def dictGetD (d : Dict) (k : String) : PyVal :=
  match getVal d k with
  | some v => v
  | Option.none => PyVal.none

/-! ## urlparse model (urllib.parse) -/

structure UrlParts where
  scheme : String
  netloc : String
  rest : String
deriving DecidableEq

/-- Model of urllib.parse.urlparse, restricted to the two fields the code
reads.  A scheme is split off when the text before the first colon is
nonempty, starts with a letter and contains only scheme characters; a
netloc follows a leading "//" and runs to the next "/", "?" or "#". -/
def urlparse (s : String) : UrlParts :=
  let cs := s.toList
  let schemeSplit : Option (List Char × List Char) :=
    match cs.findIdx? (fun c => c == ':') with
    | some i =>
        if 0 < i then
          let pre := cs.take i
          if (pre.headD ' ').isAlpha &&
             pre.all (fun c => c.isAlpha || c.isDigit || c == '+' || c == '-' || c == '.') then
            some (pre.map Char.toLower, cs.drop (i + 1))
          else Option.none
        else Option.none
    | Option.none => Option.none
  let (scheme, rest1) :=
    match schemeSplit with
    | some (sch, r) => (sch, r)
    | Option.none => ([], cs)
  let (netloc, rest2) :=
    if leadsChars ['/', '/'] rest1 then
      let after := rest1.drop 2
      let nl := after.takeWhile (fun c => !(c == '/' || c == '?' || c == '#'))
      (nl, after.drop nl.length)
    else ([], rest1)
  ⟨String.mk scheme, String.mk netloc, String.mk rest2⟩

/-! ## The URL regex of validate_url

Pattern (with re.IGNORECASE):
https?:\/\/(www\.)?[-a-zA-Z0-9@:%._\+~#=]\x7b1,256\x7d\.[a-zA-Z0-9()]\x7b1,6\x7d\b([-a-zA-Z0-9()@:%_\+.~#?&//=]*)
modelled as a backtracking matcher with the standard greedy semantics:
longest repetition first, leftmost match wins. -/

/-- First character class of the pattern. -/
def clsA (c : Char) : Bool :=
  c == '-' || c.isAlpha || c.isDigit || c == '@' || c == ':' || c == '%' ||
  c == '.' || c == '_' || c == '+' || c == '~' || c == '#' || c == '='

/-- Second character class (the domain label before the word boundary). -/
def clsB (c : Char) : Bool := c.isAlpha || c.isDigit || c == '(' || c == ')'

/-- Trailing character class. -/
def clsC (c : Char) : Bool :=
  c == '-' || c.isAlpha || c.isDigit || c == '(' || c == ')' || c == '@' ||
  c == ':' || c == '%' || c == '_' || c == '+' || c == '.' || c == '~' ||
  c == '#' || c == '?' || c == '&' || c == '/' || c == '='

/-- Regex word character, for the \b assertion. -/
def isWordChar (c : Char) : Bool := c.isAlpha || c.isDigit || c == '_'

/-- Case-insensitive literal match at the head of the input. -/
def leadsCI : List Char → List Char → Bool
  | [], _ => true
  | _ :: _, [] => false
  | p :: ps, c :: cs => p.toLower == c.toLower && leadsCI ps cs

/-- Length of the maximal run of class characters at the head. -/
def runLen (p : Char → Bool) (cs : List Char) : Nat := (cs.takeWhile p).length

/-- The \b assertion between the last consumed character and the rest. -/
def boundaryOK (lastC : Char) (rest : List Char) : Bool :=
  match rest with
  | [] => isWordChar lastC
  | c :: _ => isWordChar lastC != isWordChar c

/-- Try [a-zA-Z0-9()]\x7b1,6\x7d\b[...C...]* against cs, attempting the
repetition count j first, then smaller counts (greedy backtracking).
Returns the consumed length. -/
def tryB (cs : List Char) : Nat → Option Nat
  | 0 => Option.none
  | j + 1 =>
      let jj := j + 1
      let here : Option Nat :=
        if jj ≤ runLen clsB cs then
          match cs.get? (jj - 1) with
          | some lastC =>
              if boundaryOK lastC (cs.drop jj) then
                some (jj + runLen clsC (cs.drop jj))
              else Option.none
          | Option.none => Option.none
        else Option.none
      match here with
      | some l => some l
      | Option.none => tryB cs j

/-- Try [-...A...]\x7b1,256\x7d\. followed by the tail of the pattern,
attempting the repetition count k first, then smaller counts. -/
def tryA (cs : List Char) : Nat → Option Nat
  | 0 => Option.none
  | k + 1 =>
      let kk := k + 1
      let here : Option Nat :=
        if kk ≤ runLen clsA cs then
          match cs.get? kk with
          | some c =>
              if c == '.' then
                (tryB (cs.drop (kk + 1)) (min 6 (runLen clsB (cs.drop (kk + 1))))).map
                  (fun l => kk + 1 + l)
              else Option.none
          | Option.none => Option.none
        else Option.none
      match here with
      | some l => some l
      | Option.none => tryA cs k

/-- Match of the pattern after the scheme part: (www\.)? then the
domain/path tail, greedy on the optional group. -/
def afterScheme (cs : List Char) : Option Nat :=
  let mainPart := fun (t : List Char) => tryA t (min 256 (runLen clsA t))
  if leadsCI ['w', 'w', 'w', '.'] cs then
    match mainPart (cs.drop 4) with
    | some l => some (4 + l)
    | Option.none => mainPart cs
  else mainPart cs

/-- Match of the whole pattern at the current position: https?:\/\/ then
the rest; the optional s is greedy. -/
def matchAt (cs : List Char) : Option Nat :=
  if leadsCI ['h', 't', 't', 'p'] cs then
    let rest := cs.drop 4
    let withS : Option Nat :=
      if leadsCI ['s'] rest then
        if leadsCI [':', '/', '/'] (rest.drop 1) then
          (afterScheme (rest.drop 4)).map (fun l => 8 + l)
        else Option.none
      else Option.none
    match withS with
    | some l => some l
    | Option.none =>
        if leadsCI [':', '/', '/'] rest then
          (afterScheme (rest.drop 3)).map (fun l => 7 + l)
        else Option.none
  else Option.none

/-- Leftmost match: scan positions left to right. -/
def searchAux : List Char → Option (List Char)
  | [] =>
      match matchAt [] with
      | some l => some (([] : List Char).take l)
      | Option.none => Option.none
  | c :: rest =>
      match matchAt (c :: rest) with
      | some l => some ((c :: rest).take l)
      | Option.none => searchAux rest

/-- Python url_pattern.search(input_text), returning match.group(0). -/
def urlRegexSearch (s : String) : Option String :=
  (searchAux s.toList).map String.mk

/-! ## validate_url (src/news.py lines 53-99) -/

/-- NewsSummarizer.validate_url.  Tier 1 accepts the whole input when
urlparse yields a truthy scheme and netloc; tier 2 searches with the URL
regex, prepends https:// when the match does not start with a scheme, and
returns the match; otherwise raises ValueError. -/
def validate_url (input_text : String) : Except Exc String :=
  let result := urlparse input_text
  if result.scheme != "" && result.netloc != "" then Except.ok input_text
  else
    match urlRegexSearch input_text with
    | some m =>
        let url := if leads "http://" m || leads "https://" m then m else "https://" ++ m
        -- re-validation: urlparse cannot raise in the model, and the
        -- source returns url whether or not the re-parse is truthy
        -- (lines 88-96), so both outcomes are Except.ok url
        let result2 := urlparse url
        if result2.scheme != "" && result2.netloc != "" then Except.ok url
        else Except.ok url
    | Option.none => Except.error (Exc.valueError "Invalid input. Please provide a valid URL.")

deriving instance DecidableEq for Except

/-! ## HTML document model (the BeautifulSoup boundary)

A parsed page is a tree of element and text nodes.  An element carries
its tag name, its class list, its other attributes and its children.
Children are stored as a NodeForest (a list inductive mutual with Node,
so that all traversals are structural and computable).  A whole document
is wrapped in a synthetic "[document]" element, mirroring the
BeautifulSoup object, which is itself never matched by selectors or
find_all. -/

mutual
inductive Node where
  | elem (tag : String) (classes : List String) (attrs : List (String × String)) (children : NodeForest)
  | text (s : String)
inductive NodeForest where
  | nil
  | cons (head : Node) (tail : NodeForest)
end

/-- Build a forest from a list literal. -/
def NodeForest.ofList : List Node → NodeForest
  | [] => NodeForest.nil
  | n :: ns => NodeForest.cons n (NodeForest.ofList ns)

mutual
/-- Text fragments below a node (for an element: of its descendants). -/
def nodeStrings : Node → List String
  | Node.text s => [s]
  | Node.elem _ _ _ cs => forestStrings cs
/-- All text fragments in a forest, in document order. -/
def forestStrings : NodeForest → List String
  | NodeForest.nil => []
  | NodeForest.cons n ns => nodeStrings n ++ forestStrings ns
end

/-- BeautifulSoup tag.get_text(strip=True): each descendant string is
stripped and the results are concatenated with no separator. -/
def getTextStrip (n : Node) : String := String.join ((nodeStrings n).map pyStrip)

mutual
/-- The element nodes of a subtree (the node itself included when it is
an element), in document (pre-)order. -/
def nodeElems : Node → List Node
  | Node.text _ => []
  | Node.elem t c a cs => Node.elem t c a cs :: forestElems cs
/-- The element nodes in a forest, in document order. -/
def forestElems : NodeForest → List Node
  | NodeForest.nil => []
  | NodeForest.cons n ns => nodeElems n ++ forestElems ns
end

/-- Proper descendants of a node that are elements, in document order
(BeautifulSoup find_all searches descendants only). -/
def descendantElems : Node → List Node
  | Node.text _ => []
  | Node.elem _ _ _ cs => forestElems cs

def tagOf : Node → Option String
  | Node.elem t _ _ _ => some t
  | Node.text _ => Option.none

def attrOf (n : Node) (k : String) : Option String :=
  match n with
  | Node.elem _ _ attrs _ => (attrs.find? (fun p => p.1 == k)).map (fun p => p.2)
  | Node.text _ => Option.none

/-- tag.find_all("p"): descendant paragraph elements in document order. -/
def findAllP (n : Node) : List Node :=
  (descendantElems n).filter (fun m => tagOf m == some "p")

/-- soup.find(name, attribute=value): first descendant element
satisfying the predicate. -/
def soupFind (n : Node) (p : Node → Bool) : Option Node := (descendantElems n).find? p

/-! ## CSS selectors used by _extract_content -/

/-- A simple CSS selector: optional tag name, optional class, optional
attribute equality. -/
structure SimpleSel where
  tag : Option String
  cls : Option String
  attr : Option (String × String)

/-- The selector shapes appearing in the fixed selector list: a simple
selector, or a descendant combination (ancestor-simple containing
descendant-simple at any depth). -/
inductive Sel where
  | simple (s : SimpleSel)
  | descendant (anc : SimpleSel) (des : SimpleSel)

def simpleMatches (s : SimpleSel) (n : Node) : Bool :=
  match n with
  | Node.text _ => false
  | Node.elem t classes attrs _ =>
      (match s.tag with
       | some tg => t == tg
       | Option.none => true) &&
      (match s.cls with
       | some c => classes.any (fun x => x == c)
       | Option.none => true) &&
      (match s.attr with
       | some (k, v) => (attrs.find? (fun p => p.1 == k)).map (fun p => p.2) == some v
       | Option.none => true)

def selMatches (sel : Sel) (ancestors : List Node) (n : Node) : Bool :=
  match sel with
  | Sel.simple s => simpleMatches s n
  | Sel.descendant a d => simpleMatches d n && ancestors.any (simpleMatches a)

mutual
/-- soup.select restricted to one subtree, tracking the ancestor stack
for descendant selectors. -/
def selectNode (sel : Sel) (ancestors : List Node) : Node → List Node
  | Node.text _ => []
  | Node.elem t c a cs =>
      (if selMatches sel ancestors (Node.elem t c a cs) then [Node.elem t c a cs] else []) ++
        selectForest sel (Node.elem t c a cs :: ancestors) cs
/-- soup.select over a forest: matching elements in document order. -/
def selectForest (sel : Sel) (ancestors : List Node) : NodeForest → List Node
  | NodeForest.nil => []
  | NodeForest.cons n ns => selectNode sel ancestors n ++ selectForest sel ancestors ns
end

/-- soup.select(selector): the soup root itself is not a candidate. -/
def select (sel : Sel) (soup : Node) : List Node :=
  match soup with
  | Node.text _ => []
  | Node.elem _ _ _ cs => selectForest sel [] cs

/-- The content_selectors list of _extract_content, in source order. -/
def content_selectors : List Sel :=
  [Sel.simple ⟨some "div", some "article-main", Option.none⟩,
   Sel.descendant ⟨some "article", Option.none, Option.none⟩ ⟨Option.none, some "article-body", Option.none⟩,
   Sel.descendant ⟨some "article", Option.none, Option.none⟩ ⟨Option.none, some "story-body", Option.none⟩,
   Sel.simple ⟨some "div", some "article-body", Option.none⟩,
   Sel.simple ⟨some "div", some "article-content", Option.none⟩,
   Sel.simple ⟨some "div", some "content", Option.none⟩,
   Sel.simple ⟨some "div", some "post-content", Option.none⟩,
   Sel.simple ⟨some "main", Option.none, Option.none⟩,
   Sel.simple ⟨some "article", Option.none, Option.none⟩,
   Sel.simple ⟨some "div", Option.none, some ("role", "main")⟩,
   Sel.simple ⟨Option.none, some "article-text", Option.none⟩,
   Sel.simple ⟨Option.none, some "story-content", Option.none⟩]

/-! ## _extract_content (src/news.py lines 185-229) -/

def unwanted_keywords : List String :=
  ["advertisement", "sponsored", "copyright", "related", "disclaimer"]

/-- The paragraph filter: nonempty text, word count above the threshold,
and no denylist keyword as a case-insensitive substring. -/
def acceptText (thresh : Nat) (text : String) : Bool :=
  text != "" && decide (thresh < (pySplit text).length) &&
    unwanted_keywords.all (fun kw => !(hasSub (pyLower text) kw))

/-- The texts of the accepted paragraphs among a list of p elements. -/
def acceptedParas (thresh : Nat) (ps : List Node) : List String :=
  ps.filterMap (fun p =>
    let text := getTextStrip p
    if acceptText thresh text then some text else Option.none)

/-- The inner loop over the blocks matched by one selector: article_text
is extended with each block's accepted paragraphs and returned (inl) as
soon as it is nonempty; inr carries the accumulator to the next
selector. -/
def blockLoop (acc : List String) : List Node → List String ⊕ List String
  | [] => Sum.inr acc
  | b :: bs =>
      let acc2 := acc ++ acceptedParas 5 (findAllP b)
      if acc2.isEmpty then blockLoop acc2 bs else Sum.inl acc2

/-- The outer loop over content_selectors, with the all-paragraph
fallback (threshold 10) when no selector produced text. -/
def selectorLoop (soup : Node) (acc : List String) : List Sel → List String
  | [] => if acc.isEmpty then acceptedParas 10 (findAllP soup) else acc
  | sel :: rest =>
      match blockLoop acc (select sel soup) with
      | Sum.inl res => res
      | Sum.inr acc2 => selectorLoop soup acc2 rest

/-- NewsSummarizer._extract_content. -/
def _extract_content (soup : Node) : List String :=
  selectorLoop soup [] content_selectors

/-! ## Image extraction and urljoin -/

/-- Model of urllib.parse.urljoin covering the URL shapes that occur:
absolute target, network-relative, root-relative, and a simplified
path-relative case.  No claim inspects the joined value. -/
def urljoin (base url : String) : String :=
  if url == "" then base
  else
    let uu := urlparse url
    if uu.scheme != "" then url
    else if leads "//" url then (urlparse base).scheme ++ ":" ++ url
    else if leads "/" url then (urlparse base).scheme ++ "://" ++ (urlparse base).netloc ++ url
    else (urlparse base).scheme ++ "://" ++ (urlparse base).netloc ++ "/" ++ url

/-- Lines 142-146: the og:image meta content, else the first img src,
resolved against the page URL; None when neither is present (or when the
meta stage produced a falsy value). -/
def mainImage (url : String) (soup : Node) : Option String :=
  let fromMeta :=
    match soupFind soup (fun n => tagOf n == some "meta" && attrOf n "property" == some "og:image") with
    | some t => (attrOf t "content").map (urljoin url)
    | Option.none => Option.none
  let falsy :=
    match fromMeta with
    | some s => s == ""
    | Option.none => true
  if falsy then
    match soupFind soup (fun n => tagOf n == some "img") with
    | some t => (attrOf t "src").map (urljoin url)
    | Option.none => Option.none
  else fromMeta

def optToVal : Option String → PyVal
  | some s => PyVal.str s
  | Option.none => PyVal.none

/-! ## extract_article_content (src/news.py lines 101-183) -/

/-- The per-instance request settings fixed in NewsSummarizer.__init__. -/
structure Config where
  requestTimeout : Nat
  maxRetries : Nat
  retryDelay : Nat

/-- request_timeout = 30, max_retries = 3, retry_delay = 2. -/
def defaultConfig : Config := ⟨30, 3, 2⟩

/-- One GET through the session, as seen by the attempt loop:
requests.Timeout, some other requests.RequestException (including a
raise_for_status HTTPError after the adapter's own 5xx retries), or a
response whose HTML parses to the given document. -/
inductive FetchOutcome where
  | timeout
  | requestError (msg : String)
  | ok (page : Node)

/-- Lines 159-163: join the paragraphs, collapse whitespace, strip, and
keep the first max_words words. -/
def cleanText (article_text : List String) (maxWords : Nat) : String :=
  let c1 := joinSpace article_text
  let c2 := pyStrip (collapseWs c1)
  joinSpace ((pySplit c2).take maxWords)

/-- The result of extract_article_content together with the observable
effects of the attempt loop: how many GETs were issued and which sleeps
were performed (in seconds). -/
structure ExtractOut where
  result : Except Exc Dict
  gets : Nat
  sleeps : List Nat

/-- The attempt loop of extract_article_content, by recursion on the
number of remaining attempts (the loop runs for attempt in
range(max_retries); remaining = maxRetries - attempt, so the Python test
attempt < max_retries - 1 says that this is not the last attempt, i.e.
remaining ≠ 1, checked here as remaining ≠ 0 after the pattern peels one
off).  The fetch oracle is keyed by the remaining-count so distinct
attempts can behave differently.  A ValueError from validate_url is not
caught by the except clauses and propagates; timeout exhaustion raises
TimeoutError, other transport exhaustion raises ConnectionError; a
no-content page on the last attempt raises ValueError; when the range is
exhausted without returning (only possible for maxRetries = 0) the bare
error dict of line 183 is returned. -/
def extractGo (cfg : Config) (fetch : String → Nat → FetchOutcome) (maxWords : Nat) :
    Nat → String → Nat → List Nat → ExtractOut
  | 0, _, gets, sleeps =>
      ⟨Except.ok [("error", PyVal.str "Failed to extract article content after all retries")],
       gets, sleeps⟩
  | remaining + 1, url, gets, sleeps =>
      match validate_url url with
      | Except.error e => ⟨Except.error e, gets, sleeps⟩
      | Except.ok vurl =>
          match fetch vurl remaining with
          | FetchOutcome.timeout =>
              if remaining == 0 then
                ⟨Except.error (Exc.timeoutError
                   ("Failed to fetch article after " ++ toString cfg.maxRetries ++
                    " attempts: Connection timeout")), gets + 1, sleeps⟩
              else
                extractGo cfg fetch maxWords remaining vurl (gets + 1) (sleeps ++ [cfg.retryDelay])
          | FetchOutcome.requestError m =>
              if remaining == 0 then
                ⟨Except.error (Exc.connectionError
                   ("Failed to fetch article after " ++ toString cfg.maxRetries ++
                    " attempts: " ++ m)), gets + 1, sleeps⟩
              else
                extractGo cfg fetch maxWords remaining vurl (gets + 1) (sleeps ++ [cfg.retryDelay])
          | FetchOutcome.ok page =>
              let main_image := mainImage vurl page
              let article_text := _extract_content page
              if article_text.isEmpty then
                if remaining == 0 then
                  ⟨Except.error (Exc.valueError
                     "No meaningful text could be extracted from the article."), gets + 1, sleeps⟩
                else
                  extractGo cfg fetch maxWords remaining vurl (gets + 1) (sleeps ++ [cfg.retryDelay])
              else
                ⟨Except.ok [("text", PyVal.str (cleanText article_text maxWords)),
                            ("image", optToVal main_image),
                            ("link", PyVal.str vurl)], gets + 1, sleeps⟩

/-- NewsSummarizer.extract_article_content (default max_words = 2900). -/
def extract_article_content (cfg : Config) (fetch : String → Nat → FetchOutcome)
    (url : String) (maxWords : Nat) : ExtractOut :=
  extractGo cfg fetch maxWords cfg.maxRetries url 0 []

/-! ## summarize_text and remove_redundancies (src/news.py 243-365)

The completion endpoint is an oracle from the input text to either the
response message content or a raised exception (covering request
failures and missing/None content, all of which surface as exceptions
inside the try block). -/

/-- NewsSummarizer.summarize_text: the trimmed response text, or the
textual error message on any exception. -/
def summarize_text (llm : String → Except Exc String) (text : String) : String :=
  match llm text with
  | Except.ok content => pyStrip content
  | Except.error e => "Error generating summary: " ++ e.msg

/-- NewsSummarizer.remove_redundancies: the trimmed response unless it is
empty (then the input), and the input unchanged on any exception. -/
def remove_redundancies (llm : String → Except Exc String) (text : String) : String :=
  match llm text with
  | Except.ok content =>
      let deduplicated_text := pyStrip content
      if deduplicated_text == "" then text else deduplicated_text
  | Except.error _ => text

/-! ## process_article (src/news.py lines 377-428) -/

/-- Python extraction_result["text"]; a missing key would raise KeyError
(never reached: success dicts always carry a string text). -/
def dictGetStr (d : Dict) (k : String) : Except Exc String :=
  match getVal d k with
  | some (PyVal.str s) => Except.ok s
  | some PyVal.none => Except.error (Exc.other "TypeError" ("value for key " ++ k ++ " is None"))
  | Option.none => Except.error (Exc.other "KeyError" k)

/-- The try-block body of process_article: extract (exceptions
propagate), pass a bare error dict through unchanged, otherwise
summarize and assemble the result. -/
def processBody (cfg : Config) (fetch : String → Nat → FetchOutcome)
    (llm : String → Except Exc String) (input_text : String) : Except Exc Dict :=
  match (extract_article_content cfg fetch input_text 2900).result with
  | Except.error e => Except.error e
  | Except.ok extraction_result =>
      if hasKey extraction_result "error" then Except.ok extraction_result
      else
        match dictGetStr extraction_result "text" with
        | Except.error e => Except.error e
        | Except.ok text =>
            let summary := summarize_text llm text
            Except.ok [("summary", PyVal.str summary),
                       ("link", dictGetD extraction_result "link"),
                       ("image", dictGetD extraction_result "image")]

/-- The except ValueError handler of process_article. -/
def valueErrorDict (e : Exc) : Dict :=
  [("error", PyVal.str ("Validation error: " ++ e.msg)),
   ("processing_status", PyVal.str "failed"),
   ("validation_method", PyVal.str "llm")]

/-- The except Exception handler of process_article. -/
def unexpectedErrorDict (e : Exc) : Dict :=
  [("error", PyVal.str ("Unexpected error during article processing: " ++ e.msg)),
   ("processing_status", PyVal.str "failed"),
   ("error_type", PyVal.str e.typeName),
   ("validation_method", PyVal.str "llm")]

/-- NewsSummarizer.process_article: the try body with its two handlers.
Every modelled exception is an Exception subclass, so the second handler
is total and the function always returns a dict. -/
def process_article (cfg : Config) (fetch : String → Nat → FetchOutcome)
    (llm : String → Except Exc String) (input_text : String) : Dict :=
  match processBody cfg fetch llm input_text with
  | Except.ok d => d
  | Except.error e => if e.isValueError then valueErrorDict e else unexpectedErrorDict e

/-! ## Concrete example pages used by counterexamples and witnesses -/

/-- A page whose first matching selector (div.article-main) contains only
a too-short paragraph, while a later selector (main) contains a
qualifying one; a bare paragraph sits outside every selector. -/
def exDocLateSelector : Node :=
  Node.elem "[document]" [] [] (NodeForest.ofList
    [Node.elem "html" [] [] (NodeForest.ofList
      [Node.elem "body" [] [] (NodeForest.ofList
        [Node.elem "div" ["article-main"] [] (NodeForest.ofList
          [Node.elem "p" [] [] (NodeForest.ofList [Node.text "too short"])]),
         Node.elem "main" [] [] (NodeForest.ofList
          [Node.elem "p" [] [] (NodeForest.ofList
            [Node.text "alpha beta gamma delta epsilon zeta eta"])])])])])

/-- A reachable page with no extractable content at all. -/
def emptyDoc : Node :=
  Node.elem "[document]" [] [] (NodeForest.ofList
    [Node.elem "html" [] [] (NodeForest.ofList
      [Node.elem "body" [] [] (NodeForest.ofList
        [Node.elem "p" [] [] (NodeForest.ofList [Node.text "too short"])])])])

/-- A page with one qualifying paragraph inside div.article-main. -/
def goodDoc : Node :=
  Node.elem "[document]" [] [] (NodeForest.ofList
    [Node.elem "html" [] [] (NodeForest.ofList
      [Node.elem "body" [] [] (NodeForest.ofList
        [Node.elem "div" ["article-main"] [] (NodeForest.ofList
          [Node.elem "p" [] [] (NodeForest.ofList
            [Node.text "alpha beta gamma delta epsilon zeta eta"])])])])])

deriving instance DecidableEq for SimpleSel
deriving instance DecidableEq for Sel

/-- The blocks matched by the selector list, in loop order. -/
def allBlocks (soup : Node) : List Node :=
  (content_selectors.map (fun sel => select sel soup)).flatten

/-- Does a block contribute at least one accepted paragraph? -/
def contributes (b : Node) : Bool := !(acceptedParas 5 (findAllP b)).isEmpty

/-! ## Lemmas about the string primitives -/

theorem isSpace_space : isSpace ' ' = true := rfl

theorem splitAcc_nil (acc : List Char) :
    splitAcc [] acc = if acc.isEmpty then [] else [String.mk acc.reverse] := rfl

theorem splitAcc_cons_space (c : Char) (cs acc : List Char) (h : isSpace c = true) :
    splitAcc (c :: cs) acc =
      if acc.isEmpty then splitAcc cs [] else String.mk acc.reverse :: splitAcc cs [] := by
  simp [splitAcc, h]

theorem splitAcc_cons_nonspace (c : Char) (cs acc : List Char) (h : isSpace c = false) :
    splitAcc (c :: cs) acc = splitAcc cs (c :: acc) := by
  simp [splitAcc, h]

theorem collapseChars_space_false (c : Char) (cs : List Char) (h : isSpace c = true) :
    collapseChars (c :: cs) false = ' ' :: collapseChars cs true := by
  simp [collapseChars, h]

theorem collapseChars_space_true (c : Char) (cs : List Char) (h : isSpace c = true) :
    collapseChars (c :: cs) true = collapseChars cs true := by
  simp [collapseChars, h]

theorem collapseChars_nonspace (c : Char) (cs : List Char) (b : Bool) (h : isSpace c = false) :
    collapseChars (c :: cs) b = c :: collapseChars cs false := by
  simp [collapseChars, h]

theorem splitAcc_collapse (cs : List Char) :
    (∀ acc, splitAcc (collapseChars cs false) acc = splitAcc cs acc) ∧
    splitAcc (collapseChars cs true) [] = splitAcc cs [] := by
  induction cs with
  | nil => exact ⟨fun acc => rfl, rfl⟩
  | cons c cs ih =>
      by_cases h : isSpace c
      · constructor
        · intro acc
          rw [collapseChars_space_false c cs h,
              splitAcc_cons_space c cs acc h, splitAcc_cons_space ' ' _ acc isSpace_space]
          rw [ih.2]
        · rw [collapseChars_space_true c cs h,
              splitAcc_cons_space c cs [] h]
          simp only [List.isEmpty_nil, if_true]
          exact ih.2
      · have hf : isSpace c = false := by simpa using h
        constructor
        · intro acc
          rw [collapseChars_nonspace c cs false hf,
              splitAcc_cons_nonspace c _ acc hf, splitAcc_cons_nonspace c cs acc hf]
          exact ih.1 (c :: acc)
        · rw [collapseChars_nonspace c cs true hf,
              splitAcc_cons_nonspace c _ [] hf, splitAcc_cons_nonspace c cs [] hf]
          exact ih.1 [c]

theorem splitAcc_dropWhile (cs : List Char) :
    splitAcc (cs.dropWhile isSpace) [] = splitAcc cs [] := by
  induction cs with
  | nil => rfl
  | cons c cs ih =>
      by_cases h : isSpace c
      · rw [List.dropWhile_cons]
        simp only [h, if_true]
        rw [ih, splitAcc_cons_space c cs [] h]
        simp
      · have hf : isSpace c = false := by simpa using h
        rw [List.dropWhile_cons]
        simp [hf]

theorem splitAcc_allSpace (cs : List Char) (hs : ∀ c ∈ cs, isSpace c = true) :
    splitAcc cs [] = [] := by
  induction cs with
  | nil => rfl
  | cons c cs ih =>
      rw [splitAcc_cons_space c cs [] (hs c (by simp))]
      simp only [List.isEmpty_nil, if_true]
      exact ih (fun d hd => hs d (by simp [hd]))

theorem splitAcc_allSpace_acc (cs : List Char) (hs : ∀ c ∈ cs, isSpace c = true)
    (acc : List Char) (ha : acc.isEmpty = false) :
    splitAcc cs acc = [String.mk acc.reverse] := by
  induction cs with
  | nil => simp [splitAcc_nil, ha]
  | cons c cs ih =>
      rw [splitAcc_cons_space c cs acc (hs c (by simp)), ha]
      simp only [Bool.false_eq_true, if_false]
      rw [splitAcc_allSpace cs (fun d hd => hs d (by simp [hd]))]

theorem dropTrailingWs_nil_allSpace (cs : List Char) (h : dropTrailingWs cs = []) :
    ∀ c ∈ cs, isSpace c = true := by
  induction cs with
  | nil => simp
  | cons c cs ih =>
      intro d hd
      simp only [dropTrailingWs] at h
      rcases hr : dropTrailingWs cs with _ | ⟨r, rs⟩
      · rw [hr] at h
        by_cases hc : isSpace c
        · rcases List.mem_cons.mp hd with rfl | hd2
          · exact hc
          · exact ih hr d hd2
        · simp [hc] at h
      · rw [hr] at h
        simp at h

theorem splitAcc_dropTrailing (cs : List Char) :
    ∀ acc, splitAcc (dropTrailingWs cs) acc = splitAcc cs acc := by
  induction cs with
  | nil => intro acc; rfl
  | cons c cs ih =>
      intro acc
      rcases hr : dropTrailingWs cs with _ | ⟨r, rs⟩
      · have hall : ∀ d ∈ cs, isSpace d = true := dropTrailingWs_nil_allSpace cs hr
        by_cases hc : isSpace c
        · have hdt : dropTrailingWs (c :: cs) = [] := by
            simp [dropTrailingWs, hr, hc]
          rw [hdt, splitAcc_nil, splitAcc_cons_space c cs acc hc,
              splitAcc_allSpace cs hall]
        · have hf : isSpace c = false := by simpa using hc
          have hdt : dropTrailingWs (c :: cs) = [c] := by
            simp [dropTrailingWs, hr, hf]
          rw [hdt, splitAcc_cons_nonspace c [] acc hf, splitAcc_nil,
              splitAcc_cons_nonspace c cs acc hf,
              splitAcc_allSpace_acc cs hall (c :: acc) (by simp)]
          simp
      · have hdt : dropTrailingWs (c :: cs) = c :: r :: rs := by
          simp [dropTrailingWs, hr]
        rw [hdt]
        by_cases hc : isSpace c
        · rw [splitAcc_cons_space c (r :: rs) acc hc, splitAcc_cons_space c cs acc hc,
              ← hr, ih]
        · have hf : isSpace c = false := by simpa using hc
          rw [splitAcc_cons_nonspace c (r :: rs) acc hf, splitAcc_cons_nonspace c cs acc hf,
              ← hr, ih]

theorem pySplit_strip_collapse (s : String) :
    pySplit (pyStrip (collapseWs s)) = pySplit s := by
  show splitAcc (String.mk (dropTrailingWs (((String.mk
        (collapseChars s.toList false)).toList).dropWhile isSpace))).toList [] = splitAcc s.toList []
  have h1 : (String.mk (collapseChars s.toList false)).toList = collapseChars s.toList false := rfl
  rw [h1]
  have h2 : (String.mk (dropTrailingWs ((collapseChars s.toList false).dropWhile isSpace))).toList
      = dropTrailingWs ((collapseChars s.toList false).dropWhile isSpace) := rfl
  rw [h2, splitAcc_dropTrailing, splitAcc_dropWhile]
  exact (splitAcc_collapse s.toList).1 []

/-- The normalizer in closed form: the first maxWords words of the
joined text, joined by single spaces. -/
theorem cleanText_eq (texts : List String) (maxWords : Nat) :
    cleanText texts maxWords = joinSpace ((pySplit (joinSpace texts)).take maxWords) := by
  show joinSpace ((pySplit (pyStrip (collapseWs (joinSpace texts)))).take maxWords) = _
  rw [pySplit_strip_collapse]

theorem toList_append (a b : String) : (a ++ b).toList = a.toList ++ b.toList :=
  String.data_append a b

theorem mk_ne_empty (l : List Char) (h : l ≠ []) : String.mk l ≠ "" := by
  intro he
  exact h (by simpa using congrArg String.data he)

theorem splitAcc_nonspace_run (cs : List Char) (h : ∀ c ∈ cs, isSpace c = false) :
    ∀ acc, (acc.isEmpty = false ∨ cs.isEmpty = false) →
      splitAcc cs acc = [String.mk (acc.reverse ++ cs)] := by
  induction cs with
  | nil =>
      intro acc ha
      rcases ha with ha | ha
      · simp [splitAcc_nil, ha]
      · simp at ha
  | cons c cs ih =>
      intro acc _
      rw [splitAcc_cons_nonspace c cs acc (h c (by simp))]
      rw [ih (fun d hd => h d (by simp [hd])) (c :: acc) (Or.inl (by simp))]
      simp

theorem splitAcc_word_sep (w : List Char) (hw : ∀ c ∈ w, isSpace c = false) (t : List Char) :
    ∀ acc, (acc.isEmpty = false ∨ w.isEmpty = false) →
      splitAcc (w ++ ' ' :: t) acc = String.mk (acc.reverse ++ w) :: splitAcc t [] := by
  induction w with
  | nil =>
      intro acc ha
      rcases ha with ha | ha
      · rw [List.nil_append, splitAcc_cons_space ' ' t acc isSpace_space, ha]
        simp
      · simp at ha
  | cons c w ih =>
      intro acc _
      rw [List.cons_append, splitAcc_cons_nonspace c _ acc (hw c (by simp))]
      rw [ih (fun d hd => hw d (by simp [hd])) (c :: acc) (Or.inl (by simp))]
      simp

theorem joinSpace_cons_cons (s s2 : String) (rest : List String) :
    joinSpace (s :: s2 :: rest) = s ++ " " ++ joinSpace (s2 :: rest) := rfl

theorem pySplit_joinSpace (l : List String)
    (h : ∀ t ∈ l, t.toList.isEmpty = false ∧ ∀ c ∈ t.toList, isSpace c = false) :
    pySplit (joinSpace l) = l := by
  induction l with
  | nil => rfl
  | cons s rest ih =>
      cases rest with
      | nil =>
          show splitAcc s.toList [] = [s]
          rw [splitAcc_nonspace_run s.toList (h s (by simp)).2 [] (Or.inr (h s (by simp)).1)]
          simp
      | cons s2 rest2 =>
          show splitAcc (joinSpace (s :: s2 :: rest2)).toList [] = s :: s2 :: rest2
          rw [joinSpace_cons_cons, toList_append, toList_append]
          have hsp : (" " : String).toList = [' '] := rfl
          rw [hsp, List.append_assoc]
          have hw := (h s (by simp)).2
          have hne := (h s (by simp)).1
          rw [show ([' '] ++ (joinSpace (s2 :: rest2)).toList) = ' ' :: (joinSpace (s2 :: rest2)).toList from rfl]
          rw [splitAcc_word_sep s.toList hw _ [] (Or.inr hne)]
          have ih2 := ih (fun t ht => h t (by simp [ht]))
          show String.mk s.toList :: splitAcc (joinSpace (s2 :: rest2)).toList [] = _
          rw [show String.mk s.toList = s from rfl]
          exact congrArg (s :: ·) ih2

theorem splitAcc_ne_nil_acc (cs : List Char) :
    ∀ acc, acc.isEmpty = false → splitAcc cs acc ≠ [] := by
  induction cs with
  | nil => intro acc ha; simp [splitAcc_nil, ha]
  | cons c cs ih =>
      intro acc ha
      by_cases h : isSpace c
      · rw [splitAcc_cons_space c cs acc h, ha]
        simp
      · have hf : isSpace c = false := by simpa using h
        rw [splitAcc_cons_nonspace c cs acc hf]
        exact ih (c :: acc) (by simp)

theorem splitAcc_ne_nil_of_nonspace (cs : List Char)
    (h : ∃ c ∈ cs, isSpace c = false) : splitAcc cs [] ≠ [] := by
  induction cs with
  | nil => simp at h
  | cons c cs ih =>
      by_cases hc : isSpace c
      · rw [splitAcc_cons_space c cs [] hc]
        simp only [List.isEmpty_nil, if_true]
        rcases h with ⟨d, hd, hds⟩
        rcases List.mem_cons.mp hd with rfl | hd2
        · rw [hc] at hds; simp at hds
        · exact ih ⟨d, hd2, hds⟩
      · have hf : isSpace c = false := by simpa using hc
        rw [splitAcc_cons_nonspace c cs [] hf]
        exact splitAcc_ne_nil_acc cs [c] (by simp)

theorem mem_splitAcc_ne_empty (cs : List Char) :
    ∀ acc w, w ∈ splitAcc cs acc → w ≠ "" := by
  induction cs with
  | nil =>
      intro acc w hw
      rw [splitAcc_nil] at hw
      by_cases ha : acc.isEmpty
      · simp [ha] at hw
      · have ha2 : acc.isEmpty = false := by simpa using ha
        simp [ha2] at hw
        subst hw
        exact mk_ne_empty _ (by
          intro hrev
          have : acc = [] := by simpa using congrArg List.reverse hrev
          rw [this] at ha2
          simp at ha2)
  | cons c cs ih =>
      intro acc w hw
      by_cases hc : isSpace c
      · rw [splitAcc_cons_space c cs acc hc] at hw
        by_cases ha : acc.isEmpty
        · simp only [ha, if_true] at hw
          exact ih [] w hw
        · have ha2 : acc.isEmpty = false := by simpa using ha
          simp only [ha2, Bool.false_eq_true, if_false, List.mem_cons] at hw
          rcases hw with rfl | hw
          · exact mk_ne_empty _ (by
              intro hrev
              have : acc = [] := by simpa using congrArg List.reverse hrev
              rw [this] at ha2
              simp at ha2)
          · exact ih [] w hw
      · have hf : isSpace c = false := by simpa using hc
        rw [splitAcc_cons_nonspace c cs acc hf] at hw
        exact ih (c :: acc) w hw

theorem joinSpace_ne_empty (w : String) (ws : List String) (h : w ≠ "") :
    joinSpace (w :: ws) ≠ "" := by
  cases ws with
  | nil => exact h
  | cons s2 rest =>
      rw [joinSpace_cons_cons]
      intro he
      have hd := congrArg String.data he
      rw [String.data_append, String.data_append] at hd
      have hsp : (" " : String).data = [' '] := rfl
      rw [hsp] at hd
      simp at hd

theorem joinSpace_head_chars (t : String) (rest : List String) (c : Char)
    (hc : c ∈ t.toList) : c ∈ (joinSpace (t :: rest)).toList := by
  cases rest with
  | nil => exact hc
  | cons s2 rest2 =>
      rw [joinSpace_cons_cons, toList_append, toList_append]
      exact List.mem_append_left _ (List.mem_append_left _ hc)

theorem exists_nonspace_of_pySplit_ne_nil (t : String) (h : pySplit t ≠ []) :
    ∃ c ∈ t.toList, isSpace c = false := by
  by_contra hno
  push_neg at hno
  refine h (splitAcc_allSpace t.toList ?_)
  intro c hc
  have := hno c hc
  simpa using this

/-! ## Lemmas about _extract_content -/

theorem mem_acceptedParas (thresh : Nat) (ps : List Node) (t : String)
    (h : t ∈ acceptedParas thresh ps) : acceptText thresh t = true := by
  rcases List.mem_filterMap.mp h with ⟨p, _, hfp⟩
  by_cases hac : acceptText thresh (getTextStrip p)
  · simp only [acceptedParas] at hfp
    simp [hac] at hfp
    rw [← hfp]
    exact hac
  · simp [hac] at hfp

theorem blockLoop_nil_eq (bs : List Node) :
    blockLoop [] bs =
      match bs.find? contributes with
      | some b => Sum.inl (acceptedParas 5 (findAllP b))
      | Option.none => Sum.inr [] := by
  induction bs with
  | nil => rfl
  | cons b bs ih =>
      by_cases hb : (acceptedParas 5 (findAllP b)).isEmpty
      · have hc : contributes b = false := by simp [contributes, hb]
        have hemp : acceptedParas 5 (findAllP b) = [] := by simpa using hb
        rw [List.find?_cons_of_neg _ (by simp [hc])]
        simp only [blockLoop, hemp, List.append_nil, List.isEmpty_nil, if_true]
        exact ih
      · have hc : contributes b = true := by simp [contributes, hb]
        rw [List.find?_cons_of_pos _ hc]
        have hb2 : (acceptedParas 5 (findAllP b)).isEmpty = false := by simpa using hb
        simp only [blockLoop, List.nil_append, hb2, Bool.false_eq_true, if_false]

theorem selectorLoop_nil_eq (soup : Node) (sels : List Sel) :
    selectorLoop soup [] sels =
      match ((sels.map (fun sel => select sel soup)).flatten).find? contributes with
      | some b => acceptedParas 5 (findAllP b)
      | Option.none => acceptedParas 10 (findAllP soup) := by
  induction sels with
  | nil => rfl
  | cons sel rest ih =>
      show (match blockLoop [] (select sel soup) with
            | Sum.inl res => res
            | Sum.inr acc2 => selectorLoop soup acc2 rest) = _
      rw [blockLoop_nil_eq]
      rw [List.map_cons, List.flatten_cons, List.find?_append]
      cases hf : (select sel soup).find? contributes with
      | some b => simp [hf]
      | none => simp only [hf, Option.none_or]; exact ih

/-- The extractor in closed form: the accepted paragraphs of the first
matched block (in selector order, then document order) that yields any,
else the threshold-10 fallback over every paragraph of the page. -/
theorem extract_content_eq (soup : Node) :
    _extract_content soup =
      match (allBlocks soup).find? contributes with
      | some b => acceptedParas 5 (findAllP b)
      | Option.none => acceptedParas 10 (findAllP soup) :=
  selectorLoop_nil_eq soup content_selectors

theorem mem_extract_content (soup : Node) (t : String) (h : t ∈ _extract_content soup) :
    acceptText 5 t = true ∨ acceptText 10 t = true := by
  rw [extract_content_eq] at h
  cases hf : (allBlocks soup).find? contributes with
  | some b =>
      rw [hf] at h
      exact Or.inl (mem_acceptedParas 5 (findAllP b) t h)
  | none =>
      rw [hf] at h
      exact Or.inr (mem_acceptedParas 10 (findAllP soup) t h)

theorem pySplit_ne_nil_of_acceptText (thresh : Nat) (t : String)
    (h : acceptText thresh t = true) : pySplit t ≠ [] := by
  have hlen : thresh < (pySplit t).length := by
    simp only [acceptText, Bool.and_eq_true] at h
    exact of_decide_eq_true h.1.2
  intro hnil
  rw [hnil] at hlen
  simp at hlen

/-! ## Lemmas about the attempt loop -/

theorem cleanText_ne_empty (arts : List String) (maxWords : Nat) (hmw : 1 ≤ maxWords)
    (hmem : ∀ t ∈ arts, acceptText 5 t = true ∨ acceptText 10 t = true)
    (hne : arts ≠ []) : cleanText arts maxWords ≠ "" := by
  cases arts with
  | nil => exact absurd rfl hne
  | cons t rest =>
      have ht : acceptText 5 t = true ∨ acceptText 10 t = true := hmem t (by simp)
      have hsplit : pySplit t ≠ [] := by
        rcases ht with ht | ht
        · exact pySplit_ne_nil_of_acceptText 5 t ht
        · exact pySplit_ne_nil_of_acceptText 10 t ht
      obtain ⟨c, hc, hcs⟩ := exists_nonspace_of_pySplit_ne_nil t hsplit
      have hW : pySplit (joinSpace (t :: rest)) ≠ [] :=
        splitAcc_ne_nil_of_nonspace _ ⟨c, joinSpace_head_chars t rest c hc, hcs⟩
      rw [cleanText_eq]
      have htake : (pySplit (joinSpace (t :: rest))).take maxWords ≠ [] := by
        rw [Ne, List.take_eq_nil_iff]
        push_neg
        exact ⟨by omega, hW⟩
      rcases hw : (pySplit (joinSpace (t :: rest))).take maxWords with _ | ⟨w, ws⟩
      · exact absurd hw htake
      · have hwmem : w ∈ pySplit (joinSpace (t :: rest)) :=
          List.take_subset maxWords _ (by rw [hw]; simp)
        exact joinSpace_ne_empty w ws (mem_splitAcc_ne_empty _ [] w hwmem)

theorem extractGo_text_nonempty (cfg : Config) (fetch : String → Nat → FetchOutcome)
    (maxWords : Nat) (hmw : 1 ≤ maxWords) :
    ∀ fuel url gets sleeps d,
      (extractGo cfg fetch maxWords fuel url gets sleeps).result = Except.ok d →
      hasKey d "error" = false →
      ∃ t, getVal d "text" = some (PyVal.str t) ∧ t ≠ "" := by
  intro fuel
  induction fuel with
  | zero =>
      intro url gets sleeps d hok herr
      have hd : d = [("error", PyVal.str "Failed to extract article content after all retries")] := by
        simpa [extractGo] using hok.symm
      rw [hd] at herr
      have : hasKey [("error", PyVal.str "Failed to extract article content after all retries")]
          "error" = true := by decide
      rw [this] at herr
      cases herr
  | succ remaining ih =>
      intro url gets sleeps d hok herr
      cases hval : validate_url url with
      | error e =>
          simp [extractGo, hval] at hok
      | ok vurl =>
          cases hf : fetch vurl remaining with
          | timeout =>
              by_cases h0 : remaining = 0
              · subst h0
                simp [extractGo, hval, hf] at hok
              · simp only [extractGo, hval, hf] at hok
                have h0f : (remaining == 0) = false := by simpa using h0
                simp [h0f] at hok
                exact ih vurl (gets + 1) (sleeps ++ [cfg.retryDelay]) d hok herr
          | requestError m =>
              by_cases h0 : remaining = 0
              · subst h0
                simp [extractGo, hval, hf] at hok
              · simp only [extractGo, hval, hf] at hok
                have h0f : (remaining == 0) = false := by simpa using h0
                simp [h0f] at hok
                exact ih vurl (gets + 1) (sleeps ++ [cfg.retryDelay]) d hok herr
          | ok page =>
              by_cases hemp : (_extract_content page).isEmpty
              · by_cases h0 : remaining = 0
                · subst h0
                  simp [extractGo, hval, hf, hemp] at hok
                · simp only [extractGo, hval, hf] at hok
                  have h0f : (remaining == 0) = false := by simpa using h0
                  simp [hemp, h0f] at hok
                  exact ih vurl (gets + 1) (sleeps ++ [cfg.retryDelay]) d hok herr
              · have hempf : (_extract_content page).isEmpty = false := by simpa using hemp
                simp only [extractGo, hval, hf] at hok
                simp [hempf] at hok
                refine ⟨cleanText (_extract_content page) maxWords, ?_, ?_⟩
                · rw [← hok]
                  rfl
                · exact cleanText_ne_empty (_extract_content page) maxWords hmw
                    (fun t ht => mem_extract_content page t ht)
                    (by simpa using hempf)

/-! ## Claim theorems -/

theorem toString_three : toString (3 : Nat) = "3" := rfl

theorem timeoutMsg_eq :
    ("Failed to fetch article after " ++ toString (3 : Nat) ++ " attempts: Connection timeout") =
      "Failed to fetch article after 3 attempts: Connection timeout" := rfl

theorem connMsg_eq :
    ("Failed to fetch article after " ++ toString (3 : Nat) ++ " attempts: ") =
      "Failed to fetch article after 3 attempts: " := rfl

/-- C3: the spec claims validate_url finds a schemeless URL such as
"www.example.com/news" in prose with a scheme-optional pattern and
returns it prefixed with https://.  The regex in the source requires a
literal http:// or https://, so the input is rejected with the
ValueError input-error instead; the prepend-https branch of the code
is unreachable for schemeless input. -/
theorem validate_url_schemeless_rejected :
    validate_url "Check www.example.com/news for details" =
      Except.error (Exc.valueError "Invalid input. Please provide a valid URL.") := by
  decide

/-- C7: when the completion call inside remove_redundancies raises, the
input text is returned byte-for-byte. -/
theorem remove_redundancies_error_fallback (llm : String → Except Exc String)
    (text : String) (e : Exc) (h : llm text = Except.error e) :
    remove_redundancies llm text = text := by
  simp [remove_redundancies, h]

theorem remove_redundancies_error_fallback_witness :
    remove_redundancies (fun _ => Except.error (Exc.other "APIConnectionError" "boom"))
      "original  text\nkept exactly" = "original  text\nkept exactly" :=
  remove_redundancies_error_fallback _ _ (Exc.other "APIConnectionError" "boom") rfl

/-- C10: when the completion call succeeds but the trimmed response is
empty, remove_redundancies returns the original input, not the empty
string. -/
theorem remove_redundancies_empty_response (llm : String → Except Exc String)
    (text c : String) (h1 : llm text = Except.ok c) (h2 : pyStrip c = "") :
    remove_redundancies llm text = text := by
  simp [remove_redundancies, h1, h2]

theorem remove_redundancies_empty_response_witness :
    pyStrip " \n  " = "" ∧
    remove_redundancies (fun _ => Except.ok " \n  ") "keep me" = "keep me" :=
  ⟨by decide, remove_redundancies_empty_response _ "keep me" " \n  " rfl (by decide)⟩

/-- C8: summarize_text either returns the trimmed model response
verbatim, or on a raised request failure returns a textual error message
as the summary; being a total function of the oracle outcome it never
raises. -/
theorem summarize_text_total_shape (llm : String → Except Exc String) (text : String) :
    (∃ c, llm text = Except.ok c ∧ summarize_text llm text = pyStrip c) ∨
    (∃ e, llm text = Except.error e ∧
      summarize_text llm text = "Error generating summary: " ++ e.msg) := by
  cases h : llm text with
  | ok c => exact Or.inl ⟨c, rfl, by simp [summarize_text, h]⟩
  | error e => exact Or.inr ⟨e, rfl, by simp [summarize_text, h]⟩

/-- C4: process_article is total: the try body either returns a dict
that is passed through, or raises an exception that the two handlers
convert into a result dict; a non-ValueError exception yields the
wrapped dict with error, processing_status "failed", error_type set to
the exception kind, and validation_method "llm". -/
theorem process_article_never_raises (cfg : Config) (fetch : String → Nat → FetchOutcome)
    (llm : String → Except Exc String) (input_text : String) :
    (∃ d, processBody cfg fetch llm input_text = Except.ok d ∧
          process_article cfg fetch llm input_text = d) ∨
    (∃ e, processBody cfg fetch llm input_text = Except.error e ∧ e.isValueError = true ∧
          process_article cfg fetch llm input_text = valueErrorDict e) ∨
    (∃ e, processBody cfg fetch llm input_text = Except.error e ∧ e.isValueError = false ∧
          process_article cfg fetch llm input_text = unexpectedErrorDict e ∧
          getVal (unexpectedErrorDict e) "error" =
            some (PyVal.str ("Unexpected error during article processing: " ++ e.msg)) ∧
          getVal (unexpectedErrorDict e) "processing_status" = some (PyVal.str "failed") ∧
          getVal (unexpectedErrorDict e) "error_type" = some (PyVal.str e.typeName) ∧
          getVal (unexpectedErrorDict e) "validation_method" = some (PyVal.str "llm")) := by
  cases hb : processBody cfg fetch llm input_text with
  | ok d => exact Or.inl ⟨d, rfl, by simp [process_article, hb]⟩
  | error e =>
      by_cases hve : e.isValueError
      · exact Or.inr (Or.inl ⟨e, rfl, hve, by simp [process_article, hb, hve]⟩)
      · have hvef : e.isValueError = false := by simpa using hve
        exact Or.inr (Or.inr ⟨e, rfl, hvef,
          by simp [process_article, hb, hvef], rfl, rfl, rfl, rfl⟩)

/-- C9: the normalizer equals taking the first maxWords
whitespace-separated words of the joined paragraphs and joining them
with single spaces (so every whitespace run, newlines included,
collapses and the ends are trimmed); a mixed-whitespace example
normalizes as specified, and 3000 single-spaced words truncate to
exactly 2900. -/
theorem clean_text_normalizer_spec :
    (∀ texts maxWords, cleanText texts maxWords =
        joinSpace ((pySplit (joinSpace texts)).take maxWords)) ∧
    cleanText ["First\n\nparagraph  here", " second   chunk\t"] 2900 =
      "First paragraph here second chunk" ∧
    (pySplit (cleanText (List.replicate 3000 "word") 2900)).length = 2900 := by
  refine ⟨cleanText_eq, by decide, ?_⟩
  have hmem : ∀ t ∈ List.replicate 3000 "word",
      t.toList.isEmpty = false ∧ ∀ c ∈ t.toList, isSpace c = false := by
    intro t ht
    have h := List.eq_of_mem_replicate ht
    subst h
    decide
  have h2 : pySplit (joinSpace (List.replicate 3000 "word")) = List.replicate 3000 "word" :=
    pySplit_joinSpace _ hmem
  rw [cleanText_eq, h2, List.take_replicate]
  have hmin : min 2900 3000 = 2900 := by norm_num
  rw [hmin]
  have hmem2 : ∀ t ∈ List.replicate 2900 "word",
      t.toList.isEmpty = false ∧ ∀ c ∈ t.toList, isSpace c = false := by
    intro t ht
    have h := List.eq_of_mem_replicate ht
    subst h
    decide
  rw [pySplit_joinSpace _ hmem2, List.length_replicate]

/-- C2 counterexample: in exDocLateSelector the first selector of the
list (div.article-main) matches an element, that element yields no
accepted paragraph, and yet _extract_content returns the qualifying
paragraph found under a later selector (main) — so the function is not
determined by the first selector that matches elements, contradicting
the claim as stated. -/
theorem extract_content_first_selector_counterexample :
    content_selectors.head? = some (Sel.simple ⟨some "div", some "article-main", Option.none⟩) ∧
    (select (Sel.simple ⟨some "div", some "article-main", Option.none⟩)
        exDocLateSelector).isEmpty = false ∧
    ((select (Sel.simple ⟨some "div", some "article-main", Option.none⟩)
        exDocLateSelector).map (fun b => acceptedParas 5 (findAllP b))).flatten = [] ∧
    _extract_content exDocLateSelector = ["alpha beta gamma delta epsilon zeta eta"] := by
  decide

/-- C2 (amended): _extract_content walks the selectors in source order
and, inside a selector, its matched blocks in document order; it returns
the accepted paragraphs (word count above 5, no denylist keyword,
document order) of the first matched block that contributes any — a
selector whose matches contribute nothing is skipped — and falls back to
all page paragraphs with threshold 10 when no block contributes. -/
theorem extract_content_first_contributing_block (soup : Node) :
    _extract_content soup =
      match (allBlocks soup).find? contributes with
      | some b => acceptedParas 5 (findAllP b)
      | Option.none => acceptedParas 10 (findAllP soup) :=
  extract_content_eq soup

/-- C6: a successful extraction result (no "error" key) carries a
non-empty text string, for any word budget of at least one (the default
is 2900). -/
theorem extract_article_content_text_nonempty (cfg : Config)
    (fetch : String → Nat → FetchOutcome) (url : String) (maxWords : Nat)
    (hmw : 1 ≤ maxWords) (d : Dict)
    (hok : (extract_article_content cfg fetch url maxWords).result = Except.ok d)
    (herr : hasKey d "error" = false) :
    ∃ t, getVal d "text" = some (PyVal.str t) ∧ t ≠ "" :=
  extractGo_text_nonempty cfg fetch maxWords hmw cfg.maxRetries url 0 [] d hok herr

theorem extract_article_content_text_nonempty_witness :
    (1 : Nat) ≤ 2900 ∧
    (extract_article_content defaultConfig (fun _ _ => FetchOutcome.ok goodDoc)
        "https://example.com/a" 2900).result =
      Except.ok [("text", PyVal.str "alpha beta gamma delta epsilon zeta eta"),
                 ("image", PyVal.none), ("link", PyVal.str "https://example.com/a")] ∧
    ∃ t, getVal [("text", PyVal.str "alpha beta gamma delta epsilon zeta eta"),
                 ("image", PyVal.none), ("link", PyVal.str "https://example.com/a")] "text" =
        some (PyVal.str t) ∧ t ≠ "" :=
  ⟨by decide, by decide,
   extract_article_content_text_nonempty defaultConfig (fun _ _ => FetchOutcome.ok goodDoc)
     "https://example.com/a" 2900 (by decide)
     [("text", PyVal.str "alpha beta gamma delta epsilon zeta eta"),
      ("image", PyVal.none), ("link", PyVal.str "https://example.com/a")]
     (by decide) (by decide)⟩

/-- C5: with the default configuration, a URL that is a fixed point of
validation and times out on every GET makes exactly 3 attempts, sleeping
the configured 2 seconds between consecutive attempts, and fails with
TimeoutError; if instead every GET raises some other transport error,
the same 3 attempts end in ConnectionError. -/
theorem extract_article_content_retry_ceiling (fetch fetchE : String → Nat → FetchOutcome)
    (url : String) (maxWords : Nat)
    (hv : validate_url url = Except.ok url)
    (ht : ∀ u n, fetch u n = FetchOutcome.timeout)
    (he : ∀ u n, ∃ m, fetchE u n = FetchOutcome.requestError m) :
    ((extract_article_content defaultConfig fetch url maxWords).gets = 3 ∧
     (extract_article_content defaultConfig fetch url maxWords).sleeps = [2, 2] ∧
     (extract_article_content defaultConfig fetch url maxWords).result =
       Except.error (Exc.timeoutError
         "Failed to fetch article after 3 attempts: Connection timeout")) ∧
    ((extract_article_content defaultConfig fetchE url maxWords).gets = 3 ∧
     (extract_article_content defaultConfig fetchE url maxWords).sleeps = [2, 2] ∧
     ∃ m, (extract_article_content defaultConfig fetchE url maxWords).result =
       Except.error (Exc.connectionError
         ("Failed to fetch article after 3 attempts: " ++ m))) := by
  constructor
  · have hstep : extract_article_content defaultConfig fetch url maxWords =
        extractGo defaultConfig fetch maxWords 3 url 0 [] := rfl
    rw [hstep]
    simp [extractGo, hv, ht, defaultConfig, timeoutMsg_eq]
  · obtain ⟨m0, hm0⟩ := he url 0
    obtain ⟨m1, hm1⟩ := he url 1
    obtain ⟨m2, hm2⟩ := he url 2
    have hstep : extract_article_content defaultConfig fetchE url maxWords =
        extractGo defaultConfig fetchE maxWords 3 url 0 [] := rfl
    rw [hstep]
    refine ⟨?_, ?_, m0, ?_⟩
    · simp [extractGo, hv, hm0, hm1, hm2, defaultConfig]
    · simp [extractGo, hv, hm0, hm1, hm2, defaultConfig]
    · simp [extractGo, hv, hm0, hm1, hm2, defaultConfig, connMsg_eq]

theorem extract_article_content_retry_ceiling_witness :
    validate_url "https://example.com/a" = Except.ok "https://example.com/a" ∧
    (((extract_article_content defaultConfig (fun _ _ => FetchOutcome.timeout)
          "https://example.com/a" 2900).gets = 3 ∧
      (extract_article_content defaultConfig (fun _ _ => FetchOutcome.timeout)
          "https://example.com/a" 2900).sleeps = [2, 2] ∧
      (extract_article_content defaultConfig (fun _ _ => FetchOutcome.timeout)
          "https://example.com/a" 2900).result =
        Except.error (Exc.timeoutError
          "Failed to fetch article after 3 attempts: Connection timeout")) ∧
     ((extract_article_content defaultConfig (fun _ _ => FetchOutcome.requestError "connection reset")
          "https://example.com/a" 2900).gets = 3 ∧
      (extract_article_content defaultConfig (fun _ _ => FetchOutcome.requestError "connection reset")
          "https://example.com/a" 2900).sleeps = [2, 2] ∧
      ∃ m, (extract_article_content defaultConfig (fun _ _ => FetchOutcome.requestError "connection reset")
          "https://example.com/a" 2900).result =
        Except.error (Exc.connectionError
          ("Failed to fetch article after 3 attempts: " ++ m)))) :=
  ⟨by decide,
   extract_article_content_retry_ceiling (fun _ _ => FetchOutcome.timeout)
     (fun _ _ => FetchOutcome.requestError "connection reset") "https://example.com/a" 2900
     (by decide) (fun u n => rfl) (fun u n => ⟨"connection reset", rfl⟩)⟩

/-- C1 counterexample: a reachable page with zero qualifying paragraphs
drives process_article into the ValueError handler, so the returned
object carries the processing_status and validation_method wrapper keys
alongside error — the claim says they are absent. -/
theorem process_article_empty_content_counterexample :
    hasKey (process_article defaultConfig (fun _ _ => FetchOutcome.ok emptyDoc)
        (fun _ => Except.ok "a summary") "https://example.com/a") "error" = true ∧
    hasKey (process_article defaultConfig (fun _ _ => FetchOutcome.ok emptyDoc)
        (fun _ => Except.ok "a summary") "https://example.com/a") "processing_status" = true ∧
    hasKey (process_article defaultConfig (fun _ _ => FetchOutcome.ok emptyDoc)
        (fun _ => Except.ok "a summary") "https://example.com/a") "validation_method" = true := by
  decide

/-- C1 (amended): a reachable page with zero qualifying paragraphs after
all attempts makes extract_article_content raise ValueError on the last
attempt, which process_article catches and wraps: the result is the
validation-error dict carrying error, processing_status and
validation_method (the bare error dict of line 183 is returned only when
max_retries is 0). -/
theorem process_article_empty_content_wrapped (fetch : String → Nat → FetchOutcome)
    (llm : String → Except Exc String) (input_text : String)
    (hv : validate_url input_text = Except.ok input_text)
    (hp : ∀ u n, ∃ page, fetch u n = FetchOutcome.ok page ∧ _extract_content page = []) :
    process_article defaultConfig fetch llm input_text =
      valueErrorDict (Exc.valueError "No meaningful text could be extracted from the article.") ∧
    hasKey (process_article defaultConfig fetch llm input_text) "error" = true ∧
    hasKey (process_article defaultConfig fetch llm input_text) "processing_status" = true ∧
    hasKey (process_article defaultConfig fetch llm input_text) "validation_method" = true := by
  obtain ⟨p0, hf0, he0⟩ := hp input_text 0
  obtain ⟨p1, hf1, he1⟩ := hp input_text 1
  obtain ⟨p2, hf2, he2⟩ := hp input_text 2
  have hx : (extract_article_content defaultConfig fetch input_text 2900).result =
      Except.error (Exc.valueError "No meaningful text could be extracted from the article.") := by
    have hstep : extract_article_content defaultConfig fetch input_text 2900 =
        extractGo defaultConfig fetch 2900 3 input_text 0 [] := rfl
    rw [hstep]
    simp [extractGo, hv, hf0, hf1, hf2, he0, he1, he2, defaultConfig]
  have hb : processBody defaultConfig fetch llm input_text =
      Except.error (Exc.valueError "No meaningful text could be extracted from the article.") := by
    simp [processBody, hx]
  have hmain : process_article defaultConfig fetch llm input_text =
      valueErrorDict (Exc.valueError "No meaningful text could be extracted from the article.") := by
    simp [process_article, hb, Exc.isValueError]
  exact ⟨hmain, by rw [hmain]; decide, by rw [hmain]; decide, by rw [hmain]; decide⟩

theorem process_article_empty_content_wrapped_witness :
    validate_url "https://example.com/a" = Except.ok "https://example.com/a" ∧
    (process_article defaultConfig (fun _ _ => FetchOutcome.ok emptyDoc)
        (fun _ => Except.ok "a summary") "https://example.com/a" =
      valueErrorDict (Exc.valueError "No meaningful text could be extracted from the article.") ∧
     hasKey (process_article defaultConfig (fun _ _ => FetchOutcome.ok emptyDoc)
        (fun _ => Except.ok "a summary") "https://example.com/a") "error" = true ∧
     hasKey (process_article defaultConfig (fun _ _ => FetchOutcome.ok emptyDoc)
        (fun _ => Except.ok "a summary") "https://example.com/a") "processing_status" = true ∧
     hasKey (process_article defaultConfig (fun _ _ => FetchOutcome.ok emptyDoc)
        (fun _ => Except.ok "a summary") "https://example.com/a") "validation_method" = true) :=
  ⟨by decide,
   process_article_empty_content_wrapped (fun _ _ => FetchOutcome.ok emptyDoc)
     (fun _ => Except.ok "a summary") "https://example.com/a" (by decide)
     (fun u n => ⟨emptyDoc, rfl, by decide⟩)⟩
